import Mathlib

/-!
Verification development for the dlt-parser repository: a shallow embedding of
the DLT record parser, argument parser, byte sources (`filereader.cpp`), worker
task and supervisor (`thread_supervisor.cpp`), with theorems settling the frozen
claims about the specification.

Machine integers (`size_t`, `uint8_t`, `uint16_t`, `uint32_t`) are modelled as
`Nat` with explicit truncation (`% 256`, `% 65536`, wraparound via `sizeSub1`)
at the points where the C++ types force it.  Byte buffers are `List Nat` whose
entries are read through `byteAt` (which applies the `uint8_t` truncation).
C++ exceptions are modelled by `Except DltError`; reader-state mutation that
survives a throw (the C++ objects keep their mutated fields) is modelled by
returning the updated state alongside the `Except` value.
-/

namespace Dlt

/-- `std::numeric_limits<std::size_t>::max()`, used by `fs::reader` both as the
default `chunk_len_` and as the `OVERRUN_EOF` sentinel. -/
def OVERRUN_EOF : Nat := 2 ^ 64 - 1

/-- `size_t` subtraction of one, with wraparound (used by `reader::split` where
`len_ / num * (i + 1) - 1` can wrap when the quotient is zero). -/
def sizeSub1 (n : Nat) : Nat := (n + (2 ^ 64 - 1)) % 2 ^ 64

/-- Read byte `i` of a buffer as `uint8_t` (out-of-range reads yield 0; every
concrete run below stays in range). -/
def byteAt (bs : List Nat) (i : Nat) : Nat := bs.getD i 0 % 256

/-- Little-endian 16-bit load, as the host (little-endian per `endian.h`'s
`static_assert`) reads a `uint16_t` from memory. -/
def read16le (bs : List Nat) : Nat := byteAt bs 0 + 256 * byteAt bs 1

/-- Little-endian 32-bit load. -/
def read32le (bs : List Nat) : Nat :=
  byteAt bs 0 + 256 * byteAt bs 1 + 65536 * byteAt bs 2 + 16777216 * byteAt bs 3

/-- Little-endian 64-bit load. -/
def read64le (bs : List Nat) : Nat := read32le bs + 4294967296 * read32le (bs.drop 4)

/-- Byte swap of a `uint16_t` value (`endian::detail`'s 16-bit swap). -/
def bswap16 (v : Nat) : Nat := v % 65536 / 256 + v % 256 * 256

/-- Byte swap of a `uint32_t` value. -/
def bswap32 (v : Nat) : Nat :=
  v % 4294967296 / 16777216 + v % 16777216 / 65536 * 256
    + v % 65536 / 256 * 65536 + v % 256 * 16777216

/-- Byte swap of a `uint64_t` value. -/
def bswap64 (v : Nat) : Nat := bswap32 (v % 4294967296) * 4294967296 + bswap32 (v / 4294967296)

/-- `endian::detail::read16_swap`: swap iff `big_endian` (host is little-endian). -/
def read16_swap (v : Nat) (big : Bool) : Nat := if big then bswap16 v else v

/-- `endian::detail::read32_swap`. -/
def read32_swap (v : Nat) (big : Bool) : Nat := if big then bswap32 v else v

/-- `endian::detail::read64_swap`. -/
def read64_swap (v : Nat) (big : Bool) : Nat := if big then bswap64 v else v

/-- `endian::read<uint16_t>(buf, big_endian)`: native load then optional swap. -/
def endianRead16 (bs : List Nat) (big : Bool) : Nat := read16_swap (read16le bs) big

/-- `endian::read<uint32_t>(buf, big_endian)`. -/
def endianRead32 (bs : List Nat) (big : Bool) : Nat := read32_swap (read32le bs) big

/-- `endian::read<uint64_t>(buf, big_endian)`. -/
def endianRead64 (bs : List Nat) (big : Bool) : Nat := read64_swap (read64le bs) big

/-- A byte list rendered as the `std::string` holding exactly those bytes. -/
def strOfBytes (bs : List Nat) : String := String.mk (bs.map fun b => Char.ofNat (b % 256))

/-- The two exception kinds of `exceptions.h`: `except::eof` and
`except::parse_exception` (whose `nestedEof` flag records a nested
`except::eof`, as produced by `std::throw_with_nested` in `file_precache::read`
and consumed by `std::rethrow_if_nested` in `Record::Impl::parse`). -/
inductive DltError where
  | eof : DltError
  | parseError (msg : String) (nestedEof : Bool) : DltError
deriving DecidableEq

/-- `conformance::Mode` as used by the implementation (only `NonVerbose` — the
default — and `Verbose` are ever stored). -/
inductive Mode where
  | nonVerbose : Mode
  | verbose : Mode
deriving DecidableEq

/-- The state of an `fs::reader` cursor: the shared bytes plus the per-cursor
fields `pos_`, `chunk_len_`, `overrun_`, `first_valid_offset_` of
`filereader.h` (`len_` is `buf.length`). -/
structure reader where
  buf : List Nat
  pos : Nat
  chunk_len : Nat
  overrun : Nat
  first_valid_offset : Nat
deriving DecidableEq

/-- A freshly constructed (unsplit) reader over a buffer: `pos_ = 0`,
`chunk_len_` at its `size_t`-max default, accounting fields zero. -/
def readerInit (bs : List Nat) : reader :=
  { buf := bs, pos := 0, chunk_len := 2 ^ 64 - 1, overrun := 0, first_valid_offset := 0 }

/-- `file_precache::read`: fail past the true end (setting `overrun_` to
`OVERRUN_EOF` and throwing a `parse_exception` with a nested `eof`), record a
fence crossing in `overrun_`, return the bytes and advance. State updates made
before the throw survive it, exactly as the C++ member fields do. -/
def file_precache.read (r : reader) (bytes_to_read : Nat) : reader × Except DltError (List Nat) :=
  let new_pos := r.pos + bytes_to_read
  if new_pos > r.buf.length then
    ({ r with overrun := OVERRUN_EOF },
      .error (.parseError "file ended with incomplete record" true))
  else
    let r' := if new_pos > r.chunk_len then { r with overrun := new_pos } else r
    ({ r' with pos := new_pos }, .ok ((r.buf.drop r.pos).take bytes_to_read))

/-- `file_map::read`: fail past the end with a bare `eof`, return the bytes and
advance.  Unlike `file_precache::read` it never touches `overrun_`. -/
def file_map.read (r : reader) (bytes_to_read : Nat) : reader × Except DltError (List Nat) :=
  if r.pos + bytes_to_read > r.buf.length then
    (r, .error .eof)
  else
    ({ r with pos := r.pos + bytes_to_read }, .ok ((r.buf.drop r.pos).take bytes_to_read))

/-- `reader::set_pos` (identical in both implementations; the `assert` is a
no-op in release builds). -/
def reader.set_pos (r : reader) (p : Nat) : reader := { r with pos := p }

/-- `reader::notify_success`: capture `first_valid_offset_` once, then signal
end of stream when the cursor sits exactly at the end of the file.  The
`first_valid_offset_` update happens before the throw. -/
def reader.notify_success (r : reader) (offset : Nat) : reader × Except DltError Unit :=
  let r' := if r.first_valid_offset = 0 then { r with first_valid_offset := offset } else r
  if r'.pos = r'.buf.length then (r', .error .eof) else (r', .ok ())

/-- `reader::split`: `num` clones with `pos_ = len_ / num * i` and
`chunk_len_ = len_ / num * (i + 1) - 1` (in `size_t` arithmetic); an empty
file throws `eof`. -/
def reader.split (bs : List Nat) (num : Nat) : Except DltError (List reader) :=
  if bs.length = 0 then .error .eof
  else .ok ((List.range num).map fun i =>
    { buf := bs
      pos := bs.length / num * i
      chunk_len := sizeSub1 (bs.length / num * (i + 1))
      overrun := 0
      first_valid_offset := 0 })

/-- The parsed-record state behind `Record::Impl`: the DLT headers, the derived
options, the formatted message and the corruption marker.  (`ctrlServiceId_`
and `ctrlReturnType_` are write-only internals with no public accessor and are
not modelled.) -/
structure DltRecord where
  corruptionCause : Option String
  pattern : List Nat
  seconds : Nat
  microseconds : Nat
  ecu : List Nat
  htyp : Nat
  mcnt : Nat
  stdLen : Nat
  extraEcu : List Nat
  seid : Nat
  tmsp : Nat
  msin : Nat
  noar : Nat
  apid : List Nat
  ctid : List Nat
  isBigEndian : Bool
  mode : Mode
  type : Int
  subType : Int
  message : String
deriving DecidableEq

/-- A default-constructed `Record::Impl` (zero-initialized headers, `mode_ =
NonVerbose`, `type_ = TypeUnknown = -2`, `subType_ = SUBTYPE_UNKNOWN = -2`). -/
def emptyRecord : DltRecord :=
  { corruptionCause := none
    pattern := [0, 0, 0, 0]
    seconds := 0
    microseconds := 0
    ecu := [0, 0, 0, 0]
    htyp := 0
    mcnt := 0
    stdLen := 0
    extraEcu := [0, 0, 0, 0]
    seid := 0
    tmsp := 0
    msin := 0
    noar := 0
    apid := [0, 0, 0, 0]
    ctid := [0, 0, 0, 0]
    isBigEndian := false
    mode := .nonVerbose
    type := -2
    subType := -2
    message := "" }

instance : Inhabited DltRecord := ⟨emptyRecord⟩

/-- `Record::isCorrupted`: whether the optional corruption cause is engaged. -/
def DltRecord.isCorrupted (r : DltRecord) : Bool := r.corruptionCause.isSome

/-- `Record::getCorruptionCause`: `corruptionCause_.value()` — returns the text
when present and raises `std::bad_optional_access` (modelled as the `Except`
error) when absent. -/
def DltRecord.getCorruptionCause (r : DltRecord) : Except String String :=
  match r.corruptionCause with
  | some s => .ok s
  | none => .error "bad optional access"

/-! ### Argument parser (`argparser.h`) components -/

/-- The hex digit table of `ArgParser::parseRaw`. -/
def hexLiterals : List Char :=
  ['0', '1', '2', '3', '4', '5', '6', '7', '8', '9', 'A', 'B', 'C', 'D', 'E', 'F']

/-- The two hex characters `parseRaw` writes for one byte. -/
def byteHexChars (b : Nat) : List Char :=
  [hexLiterals.getD (b % 256 / 16) '0', hexLiterals.getD (b % 16) '0']

/-- The hex characters `parseRaw` writes for a byte sequence. -/
def hexOfBytes (bs : List Nat) : List Char := (bs.map byteHexChars).flatten

/-- `ArgParser::parseRaw`: read a 16-bit length in the record's endianness,
resize the output by `len * 2 + 1` (the filler is `'\0'`), overwrite the first
`2 * len` of the new characters with uppercase hex, and consume `len` payload
bytes.  Returns the new output string and the remaining payload. -/
def parseRaw (isBE : Bool) (payload : List Nat) (output : String) : String × List Nat :=
  let len := endianRead16 payload isBE
  let p := payload.drop 2
  (output ++ String.mk (hexOfBytes (p.take len)) ++ "\x00", p.drop len)

/-- `ArgParser::parseStr`: read a 16-bit length in the record's endianness;
`len == 0` is a parse failure; ASCII coding requires byte `len - 1` to be NUL
and appends the first `len - 1` bytes, consuming `len`; UTF-8 is unsupported;
any other coding is invalid. -/
def parseStr (isBE : Bool) (scod : Nat) (payload : List Nat) (output : String) :
    Except DltError (String × List Nat) :=
  let len := endianRead16 payload isBE
  if len = 0 then .error (.parseError "INFO_STRG len is 0" false)
  else
    let p := payload.drop 2
    if scod = 0 then
      if byteAt p (len - 1) ≠ 0 then .error (.parseError "string is not null-terminated" false)
      else .ok (output ++ strOfBytes (p.take (len - 1)), p.drop len)
    else if scod = 0x8000 then .error (.parseError "SCOD_UTF8 is not supported yet" false)
    else .error (.parseError "incorrect CodingType of string" false)

/-- The STRING branch of `ArgParser::parse`: given the decoded 32-bit type-info
word (whose `INFO_STRG` bit matched) and the payload after that word, reject
`INFO_VARI` and dispatch to `parseStr` with the coding subfield. -/
def parseStringArg (isBE : Bool) (typeInfo : Nat) (payload : List Nat) (output : String) :
    Except DltError (String × List Nat) :=
  if typeInfo &&& 0x800 ≠ 0 then .error (.parseError "how could string be variable?" false)
  else parseStr isBE (typeInfo &&& 0x38000) payload output

/-- The radix selected by `ArgParser::parseTyle`'s template parameter. -/
inductive Radix where
  | dec : Radix
  | hex : Radix
  | bin : Radix
deriving DecidableEq

/-- `ArgParser::parseTyle<T, R>` for an unsigned integer of `w` bytes: extract
the value in the record's endianness and format it.  The HEX/BIN branches
produce `fmt`'s `{:#x}` / `{:#b}` forms and then fall through to the
unconditional decimal `{}` append, exactly as the source does. -/
def parseTyleUInt (isBE : Bool) (w : Nat) (radix : Radix) (payload : List Nat) (output : String) :
    String × List Nat :=
  let val := match w with
    | 1 => byteAt payload 0
    | 2 => endianRead16 payload isBE
    | 4 => endianRead32 payload isBE
    | _ => endianRead64 payload isBE
  let radixPart := match radix with
    | .hex => "0x" ++ String.mk (Nat.toDigits 16 val)
    | .bin => "0b" ++ String.mk (Nat.toDigits 2 val)
    | .dec => ""
  (output ++ radixPart ++ toString val, payload.drop w)

/-- `ArgParser::parseUInt` together with the coding-to-radix selection of the
`parseTyle(scod_type)` helper: dispatch on the tyle subfield (1/2/3/4 → widths
1/2/4/8 bytes; 128-bit and unknown tyles are parse failures). -/
def parseUIntArg (isBE : Bool) (tyle : Nat) (scod : Nat) (payload : List Nat) (output : String) :
    Except DltError (String × List Nat) :=
  let radix := if scod = 0x10000 then Radix.hex else if scod = 0x18000 then Radix.bin else Radix.dec
  match tyle with
  | 1 => .ok (parseTyleUInt isBE 1 radix payload output)
  | 2 => .ok (parseTyleUInt isBE 2 radix payload output)
  | 3 => .ok (parseTyleUInt isBE 4 radix payload output)
  | 4 => .ok (parseTyleUInt isBE 8 radix payload output)
  | 5 => .error (.parseError "not supported yet" false)
  | _ => .error (.parseError "unknown tyle type" false)

/-! ### Message assembly (`Record::Impl::assembleMessage`) -/

/-- The `CtrlServiceIdStrings` table of `record.cpp` (index 0 unused). -/
def CtrlServiceIdStrings : List String :=
  ["", "set_log_level", "set_trace_status", "get_log_info", "get_default_log_level",
   "store_config", "reset_to_factory_default", "set_com_interface_status",
   "set_com_interface_max_bandwidth", "set_verbose_mode", "set_message_filtering",
   "set_timing_packets", "get_local_time", "use_ecu_id", "use_session_id", "use_timestamp",
   "use_extended_header", "set_default_log_level", "set_default_trace_status",
   "get_software_version", "message_buffer_overflow"]

/-- `conformance::getCtrlServiceIdName`: the fixed table for ids 1..20,
`service(<id>)` otherwise. -/
def getCtrlServiceIdName (id : Nat) : String :=
  if id < 1 ∨ id > 20 then "service(" ++ toString id ++ ")"
  else CtrlServiceIdStrings.getD id ""

/-- The `CtrlReturnTypeStrings` table of `record.cpp`. -/
def CtrlReturnTypeStrings : List String :=
  ["ok", "not_supported", "error", "3", "4", "5", "6", "7", "no_matching_context_id"]

/-- `conformance::getCtrlReturnTypeName`: indices past the table are a parse
failure. -/
def getCtrlReturnTypeName (t : Nat) : Except DltError String :=
  if t ≥ 9 then .error (.parseError "invalid CtrlReturnType" false)
  else .ok (CtrlReturnTypeStrings.getD t "")

/-- `conformance::getConnectionStatus`. -/
def getConnectionStatus (s : Nat) : String :=
  if s = 1 then "disconnected" else if s = 2 then "connected" else "unknown"

/-- The argument-parser callback slot used by `assembleMessage` for verbose
records with `noar > 0` (`ArgParser<BigEndian>(payload, noar)` in the source):
endianness, `noar` and the body bytes in, the formatted message (or a parse
failure) out.  It is a parameter of the record-parsing model because the
FLOAT branch's `fmt` rendering of IEEE-754 values has no shallow embedding;
the individual argument kinds the claims are about are modelled faithfully
above (`parseStr`, `parseRaw`, `parseUIntArg`), and every theorem that touches
this slot either holds for all callbacks or never invokes it. -/
def ArgCb : Type := Bool → Nat → List Nat → Except DltError String

/-- `Record::Impl::assembleMessage`, as a function from the derived record
options and the body bytes to the formatted message (the C++ method writes
`message_`, which is always empty when the method runs, and leaves it
unchanged when it throws).  Control messages must be non-verbose; a Response
extracts the return code before the MARKER check; `GET_SOFTWARE_VERSION`
appends raw version bytes; `CONNECTION_INFO` appends status and 4 ECU bytes;
`TIMEZONE` overwrites the message with the number and optionally `DST`;
verbose records run the argument parser only when `noar > 0`; everything else
is rendered as `[<message id>]` (id read host-endian). -/
def assembleMessage (ap : ArgCb) (isBE : Bool) (mode : Mode) (type : Int) (subType : Int)
    (noar : Nat) (payload : List Nat) : Except DltError String :=
  if type = 3 then
    if mode = Mode.verbose then
      .error (.parseError "no support for verbose ctrl messages. is it required?" false)
    else
      let sid := endianRead32 payload isBE
      let p := payload.drop 4
      if subType = 2 then
        let ret := byteAt p 0
        let q := p.drop 1
        if sid = 0xf04 then .ok "MARKER"
        else
          match getCtrlReturnTypeName ret with
          | .error e => .error e
          | .ok retName =>
            let msg := "[" ++ getCtrlServiceIdName sid ++ " " ++ retName ++ "] "
            if sid = 19 then
              let len := read32le q
              .ok (msg ++ strOfBytes ((q.drop 4).take len))
            else if sid = 0xf02 then
              let status := byteAt q 0
              .ok (msg ++ getConnectionStatus status ++ " " ++ strOfBytes ((q.drop 1).take 4))
            else if sid = 0xf03 then
              let timezone := read32le q
              let isDst := byteAt (q.drop 4) 0 ≠ 0
              .ok (if isDst then toString timezone ++ "DST" else toString timezone)
            else .ok msg
      else .ok ("[" ++ getCtrlServiceIdName sid ++ "]")
  else if mode = Mode.verbose then
    if noar > 0 then ap isBE noar payload else .ok ""
  else
    .ok ("[" ++ toString (read32le payload) ++ "]")

/-! ### Record parsing (`Record::Impl::parse`) -/

/-- The mutable state threaded through one parse attempt: the reader cursor and
the `Record::Impl` fields (which persist across resynchronization retries,
exactly as the C++ member variables do). -/
structure PState where
  rdr : reader
  record : DltRecord

/-- The parse-attempt monad: state plus C++ exceptions, keeping the state that
was current at the moment of the throw. -/
def PM (α : Type) : Type := PState → PState × Except DltError α

instance : Monad PM where
  pure a := fun s => (s, .ok a)
  bind m f := fun s =>
    match m s with
    | (s', .ok a) => f a s'
    | (s', .error e) => (s', .error e)

/-- Read `n` bytes through the pre-cache byte source (the host application
constructs its reader with `reader_type::file_precache`). -/
def pmRead (n : Nat) : PM (List Nat) := fun s =>
  let (r', res) := file_precache.read s.rdr n
  ({ s with rdr := r' }, res)

/-- Throw an `except::parse_exception` with the given message. -/
def pmThrow (msg : String) : PM Unit := fun s => (s, .error (.parseError msg false))

/-- Propagate an already-built error. -/
def pmErr (e : DltError) : PM Unit := fun s => (s, .error e)

/-- Update the record fields. -/
def pmModRec (f : DltRecord → DltRecord) : PM Unit := fun s => ({ s with record := f s.record }, .ok ())

/-- Read the current record fields. -/
def pmGetRec : PM DltRecord := fun s => (s, .ok s.record)

/-- The private `Record::Impl::parse(fs::reader&)`: one attempt to decode a
record at the current cursor.  Reads the storage header (verifying the
`DLT\x01` signature), the standard header (`len` big-endian on the wire), the
`htyp`-gated extras (`seid`/`tmsp` big-endian), the optional extended header
(deriving endianness, mode, type and subtype), then the remaining
`len - (consumed - sizeof storage header)` body bytes (`uint16_t` arithmetic),
and assembles the message. -/
def parseInner (ap : ArgCb) : PM Unit := do
  let mut lenAcc : Nat := 0
  let pat ← pmRead 4
  lenAcc := lenAcc + 4
  pmModRec fun rec => { rec with pattern := pat }
  if ¬(byteAt pat 0 = 68 ∧ byteAt pat 1 = 76 ∧ byteAt pat 2 = 84 ∧ byteAt pat 3 = 1) then
    pmThrow "invalid DLT signature"
  let secB ← pmRead 4
  lenAcc := lenAcc + 4
  pmModRec fun rec => { rec with seconds := read32le secB }
  let micB ← pmRead 4
  lenAcc := lenAcc + 4
  pmModRec fun rec => { rec with microseconds := read32le micB }
  let ecuB ← pmRead 4
  lenAcc := lenAcc + 4
  pmModRec fun rec => { rec with ecu := ecuB }
  let stdB ← pmRead 4
  lenAcc := lenAcc + 4
  let htyp := byteAt stdB 0
  pmModRec fun rec =>
    { rec with htyp := htyp, mcnt := byteAt stdB 1, stdLen := read16le (stdB.drop 2) }
  let isBE := htyp &&& 2 ≠ 0
  pmModRec fun rec => { rec with isBigEndian := isBE }
  if htyp &&& 4 ≠ 0 then
    let b ← pmRead 4
    lenAcc := lenAcc + 4
    pmModRec fun rec => { rec with extraEcu := b }
  if htyp &&& 8 ≠ 0 then
    let b ← pmRead 4
    lenAcc := lenAcc + 4
    pmModRec fun rec => { rec with seid := read32_swap (read32le b) true }
  if htyp &&& 16 ≠ 0 then
    let b ← pmRead 4
    lenAcc := lenAcc + 4
    pmModRec fun rec => { rec with tmsp := read32_swap (read32le b) true }
  if htyp &&& 1 ≠ 0 then
    let b ← pmRead 10
    lenAcc := lenAcc + 10
    let msin := byteAt b 0
    pmModRec fun rec =>
      { rec with msin := msin, noar := byteAt b 1,
                 apid := (b.drop 2).take 4, ctid := (b.drop 6).take 4 }
    if msin &&& 1 ≠ 0 then
      pmModRec fun rec => { rec with mode := Mode.verbose }
    pmModRec fun rec =>
      { rec with type := ((msin &&& 14) >>> 1 : Nat), subType := ((msin &&& 240) >>> 4 : Nat) }
  let rec0 ← pmGetRec
  let bodyLen := (read16_swap rec0.stdLen true + 65536 - (lenAcc - 16)) % 65536
  let body ← pmRead bodyLen
  match assembleMessage ap rec0.isBigEndian rec0.mode rec0.type rec0.subType rec0.noar body with
  | .ok msg => pmModRec fun rec => { rec with message := msg }
  | .error e => pmErr e

/-- The public `Record::Impl::parse` retry loop: attempt a parse; on success
call `notify_success` with the attempt's start offset (whose `eof` escapes and
discards the record); on a `parse_exception` invoke the corruption handler
(`task::execute`'s lambda: push a corrupted copy of the partially-written
record unless the previous pushed record is already corrupted), rethrow a
nested `eof`, otherwise seek to `pos + 1` and retry.  Fuel bounds the
byte-by-byte resynchronization; every concrete run below has enough. -/
def recordParse (ap : ArgCb) : Nat → reader → DltRecord → List DltRecord →
    reader × List DltRecord × Except DltError DltRecord
  | 0, r, _, recs => (r, recs, .error .eof)
  | fuel + 1, r, rec, recs =>
    let current_pos := r.pos
    match parseInner ap ⟨r, rec⟩ with
    | (s', .ok ()) =>
      let (r2, res) := s'.rdr.notify_success current_pos
      match res with
      | .ok () => (r2, recs, .ok s'.record)
      | .error e => (r2, recs, .error e)
    | (s', .error (.parseError msg nested)) =>
      let doPush := match recs.getLast? with
        | none => true
        | some last => ¬last.isCorrupted
      let recs' := if doPush then recs ++ [{ s'.record with corruptionCause := some msg }] else recs
      if nested then (s'.rdr, recs', .error .eof)
      else recordParse ap fuel (s'.rdr.set_pos (current_pos + 1)) s'.record recs'
    | (s', .error .eof) => (s'.rdr, recs, .error .eof)

/-- `task::execute`: loop parsing records into the worker's list; append each
successfully parsed record, then stop once the chunk fence has been overrun;
any escaping `eof` also stops the loop.  (The cross-thread fatal-exception
check never fires in this model: no fatal exception is representable.) -/
def taskExecute (ap : ArgCb) : Nat → reader → List DltRecord → reader × List DltRecord
  | 0, r, recs => (r, recs)
  | fuel + 1, r, recs =>
    match recordParse ap (r.buf.length + 2) r emptyRecord recs with
    | (r', recs', .ok rec) =>
      let recs2 := recs' ++ [rec]
      if r'.overrun > 0 then (r', recs2) else taskExecute ap fuel r' recs2
    | (r', recs', .error _) => (r', recs')

/-- The leading-corruption test of `supervisor::execute` for chunk `i > 0`:
skip the chunk's first record iff it exists, is corrupted, and either the
previous chunk's overrun is positive and equals this chunk's first valid
offset, or both chunks' overruns are the `OVERRUN_EOF` sentinel. -/
def shouldSkipFirst (prev cur : reader) (recs : List DltRecord) : Bool :=
  match recs with
  | [] => false
  | rec0 :: _ =>
    if rec0.isCorrupted then
      (decide (0 < prev.overrun) && decide (prev.overrun = cur.first_valid_offset))
        || (decide (prev.overrun = OVERRUN_EOF) && decide (cur.overrun = OVERRUN_EOF))
    else false

/-- One merge step of `supervisor::execute`: the records chunk `i` contributes,
after the leading-corruption reconciliation against chunk `i - 1`'s reader. -/
def mergeStep (prev cur : reader) (recs : List DltRecord) : List DltRecord :=
  if shouldSkipFirst prev cur recs then recs.drop 1 else recs

/-- The merge loop of `supervisor::execute`: chunk 0's records whole, then each
later chunk's contribution in order. -/
def mergeAll : List DltRecord → reader → List (reader × List DltRecord) → List DltRecord
  | acc, _, [] => acc
  | acc, prev, cur :: rest => mergeAll (acc ++ mergeStep prev cur.1 cur.2) cur.1 rest

/-- `supervisor` construction plus `supervisor::execute` with `num` workers:
split the reader, run every task over its chunk, and merge the per-chunk
results in chunk order with boundary reconciliation. -/
def supervisorRun (ap : ArgCb) (bs : List Nat) (num : Nat) : Except DltError (List DltRecord) :=
  match reader.split bs num with
  | .error e => .error e
  | .ok readers =>
    let results := readers.map fun r => taskExecute ap (bs.length + 2) r []
    match results with
    | [] => .ok []
    | first :: rest => .ok (mergeAll first.2 first.1 rest)

/-- An argument-parser callback for runs that never reach a verbose record
with arguments (all records in the concrete files below are non-verbose). -/
def apNone : ArgCb := fun _ _ _ => .error (.parseError "unknown argument type" false)

/-! ### Concrete inputs for the counterexamples and bug evaluations -/

/-- A minimal valid 24-byte record: storage header (`DLT\x01`, seconds 1,
microseconds 2, ecu `ECU1`), standard header `htyp = 0`, `mcnt = 7`, wire
length 8, and a 4-byte non-verbose body with message id 42. -/
def rec24a : List Nat :=
  [68, 76, 84, 1, 1, 0, 0, 0, 2, 0, 0, 0, 69, 67, 85, 49, 0, 7, 0, 8, 42, 0, 0, 0]

/-- A second minimal record: `mcnt = 8`, message id 43. -/
def rec24b : List Nat :=
  [68, 76, 84, 1, 1, 0, 0, 0, 2, 0, 0, 0, 69, 67, 85, 49, 0, 8, 0, 8, 43, 0, 0, 0]

/-- A valid DLT file holding exactly one record. -/
def file24 : List Nat := rec24a

/-- A valid DLT file holding exactly two back-to-back records (48 bytes). -/
def file48 : List Nat := rec24a ++ rec24b

/-- A cursor over ten bytes with its chunk fence at 5, for comparing the two
byte-source implementations. -/
def c2rdr : reader :=
  { buf := [10, 11, 12, 13, 14, 15, 16, 17, 18, 19]
    pos := 0
    chunk_len := 5
    overrun := 0
    first_valid_offset := 0 }

deriving instance DecidableEq for Except

/-! ### Helper lemmas -/

theorem sizeSub1_add_one (n : Nat) (h1 : 1 ≤ n) (h2 : n < 2 ^ 64) : sizeSub1 n + 1 = n := by
  unfold sizeSub1; omega

theorem hexOfBytes_length (bs : List Nat) : (hexOfBytes bs).length = 2 * bs.length := by
  induction bs with
  | nil => rfl
  | cons b t ih => simp [hexOfBytes, byteHexChars] at ih ⊢; omega

/-! ### Claim theorems -/

set_option maxRecDepth 10000

/-- C1: the chunking correctness property fails on the code.  On the 48-byte
file of two back-to-back valid records, 3 workers produce two records (the
first record plus a spurious corrupted placeholder from the chunk that lay
entirely inside record two and ran off the true end), while 1 worker produces
one record (the second record is additionally lost to the `notify_success`
end-of-file signal); the concatenated sequences differ. -/
theorem chunking_equivalence_fails :
    (supervisorRun apNone file48 3).map List.length = .ok 2
    ∧ (supervisorRun apNone file48 1).map List.length = .ok 1
    ∧ supervisorRun apNone file48 3 ≠ supervisorRun apNone file48 1 := by decide

/-- C2: the two byte sources are observably different.  On a 10-byte buffer
with chunk fence 5, an 8-byte read returns the same data from both, but
`file_precache::read` records `overrun_ = 8` while `file_map::read` leaves
`overrun_ = 0`; an 11-byte read fails in `file_precache::read` with the nested
parse-failure wrapping and `overrun_ = OVERRUN_EOF`, while `file_map::read`
throws a bare `eof` and leaves `overrun_ = 0`. -/
theorem precache_map_reads_differ :
    (file_precache.read c2rdr 8).2 = (file_map.read c2rdr 8).2
    ∧ (file_precache.read c2rdr 8).1.overrun = 8
    ∧ (file_map.read c2rdr 8).1.overrun = 0
    ∧ (file_precache.read c2rdr 11).2
      = .error (.parseError "file ended with incomplete record" true)
    ∧ (file_precache.read c2rdr 11).1.overrun = OVERRUN_EOF
    ∧ (file_map.read c2rdr 11).2 = .error DltError.eof
    ∧ (file_map.read c2rdr 11).1.overrun = 0 := by decide

/-- C3: a record whose last byte is the final byte of the file is lost, not
appended.  On the single-record 24-byte file the raw parse succeeds with
message `[42]`, but the full pipeline returns an empty record list: after the
successful parse, `reader::notify_success` sees `pos_ == len_` and throws
`eof`, which escapes `Record::Impl::parse` before `task::execute` can append
the record. -/
theorem final_record_dropped_at_eof :
    (parseInner apNone ⟨readerInit file24, emptyRecord⟩).2 = .ok ()
    ∧ (parseInner apNone ⟨readerInit file24, emptyRecord⟩).1.record.message = "[42]"
    ∧ supervisorRun apNone file24 1 = .ok [] := by decide

/-- C4 counterexample: on a 5-byte file split over 3 workers the cursor starts
are `[0, 1, 2]` (`len / num * i`), but the claim's formula `floor(len·i/n)`
gives worker 2 the start `5 * 2 / 3 = 3 ≠ 2`. -/
theorem split_start_counterexample :
    (reader.split (List.replicate 5 0) 3).map (fun l => l.map reader.pos) = .ok [0, 1, 2]
    ∧ 5 * 2 / 3 = 3 ∧ ((2 : Nat) ≠ 3) := by decide

/-- C4 (amended): `split(n)` gives worker `i` a cursor starting at
`floor(len/n)·i` with chunk fence `floor(len/n)·(i+1) − 1` (as `size_t`
arithmetic: when the quotient is zero the fence wraps); successive chunks are
adjacent (`fence_i + 1 = start_{i+1}` whenever the quotient is positive), and
the chunks cover `[0, floor(len/n)·n)`, which is `[0, len)` only when `n`
divides `len`. -/
theorem split_chunk_arithmetic (bs : List Nat) (num i : Nat)
    (hlen : bs.length ≠ 0) (hi : i < num) :
    ∃ rs, reader.split bs num = .ok rs ∧ rs.length = num
      ∧ (rs.getD i (readerInit [])).pos = bs.length / num * i
      ∧ (rs.getD i (readerInit [])).chunk_len = sizeSub1 (bs.length / num * (i + 1))
      ∧ (1 ≤ bs.length / num → bs.length < 2 ^ 64 →
          (rs.getD i (readerInit [])).chunk_len + 1 = bs.length / num * (i + 1))
      ∧ bs.length / num * num ≤ bs.length := by
  refine ⟨(List.range num).map fun j =>
    { buf := bs, pos := bs.length / num * j,
      chunk_len := sizeSub1 (bs.length / num * (j + 1)),
      overrun := 0, first_valid_offset := 0 }, ?_, ?_, ?_, ?_, ?_, ?_⟩
  · simp [reader.split, hlen]
  · simp
  · simp [List.getD, List.getElem?_map, List.getElem?_range, hi]
  · simp [List.getD, List.getElem?_map, List.getElem?_range, hi]
  · intro hq hb
    have hgd : ((List.range num).map fun j =>
        ({ buf := bs, pos := bs.length / num * j,
           chunk_len := sizeSub1 (bs.length / num * (j + 1)),
           overrun := 0, first_valid_offset := 0 } : reader)).getD i (readerInit [])
        = { buf := bs, pos := bs.length / num * i,
            chunk_len := sizeSub1 (bs.length / num * (i + 1)),
            overrun := 0, first_valid_offset := 0 } := by
      simp [List.getD, List.getElem?_map, List.getElem?_range, hi]
    rw [hgd]
    have h1 : 1 ≤ bs.length / num * (i + 1) :=
      Nat.le_mul_of_pos_right _ (Nat.succ_pos i) |>.trans' hq
    have h2 : bs.length / num * (i + 1) ≤ bs.length / num * num :=
      Nat.mul_le_mul_left _ hi
    have h3 : bs.length / num * num ≤ bs.length := Nat.div_mul_le_self _ _
    exact sizeSub1_add_one _ h1 (by omega)
  · exact Nat.div_mul_le_self _ _

/-- C4 witness: the amended statement at `len = 5`, `n = 3`, `i = 2`. -/
theorem split_chunk_arithmetic_witness :
    ∃ rs, reader.split [0, 0, 0, 0, 0] 3 = .ok rs ∧ rs.length = 3
      ∧ (rs.getD 2 (readerInit [])).pos = ([0, 0, 0, 0, 0] : List Nat).length / 3 * 2
      ∧ (rs.getD 2 (readerInit [])).chunk_len
          = sizeSub1 (([0, 0, 0, 0, 0] : List Nat).length / 3 * (2 + 1))
      ∧ (1 ≤ ([0, 0, 0, 0, 0] : List Nat).length / 3
          → ([0, 0, 0, 0, 0] : List Nat).length < 2 ^ 64 →
          (rs.getD 2 (readerInit [])).chunk_len + 1
            = ([0, 0, 0, 0, 0] : List Nat).length / 3 * (2 + 1))
      ∧ ([0, 0, 0, 0, 0] : List Nat).length / 3 * 3 ≤ ([0, 0, 0, 0, 0] : List Nat).length :=
  split_chunk_arithmetic [0, 0, 0, 0, 0] 3 2 (by decide) (by decide)

/-- C5: the UINT formatter appends two representations.  A 32-bit UINT with
HEX coding and little-endian value bytes `78 56 34 12` renders as the hex form
immediately followed by the decimal form — `0x12345678305419896` — not as
`0x12345678`: the radix branch of `parseTyle` falls through to the
unconditional decimal append. -/
theorem uint_hex_double_render :
    parseUIntArg false 3 0x10000 [0x78, 0x56, 0x34, 0x12] ""
      = .ok ("0x12345678305419896", [])
    ∧ ("0x12345678305419896" : String) ≠ "0x12345678" := by decide

/-- C6: characterization of the STRING argument path.  With the length field
and string bytes in bounds, parsing succeeds iff the VARIABLE bit is clear,
the length is nonzero, the coding subfield is ASCII, and byte `len − 1` of the
string is NUL (UTF-8 and any other coding fail, as do the other three
violations); on success it appends exactly the first `len − 1` string bytes to
the output and consumes exactly `len` bytes after the length field. -/
theorem string_arg_characterization (isBE : Bool) (typeInfo : Nat) (payload : List Nat)
    (output : String) (hbound : 2 + endianRead16 payload isBE ≤ payload.length) :
    ((∃ v, parseStringArg isBE typeInfo payload output = .ok v)
      ↔ (typeInfo &&& 0x800 = 0 ∧ endianRead16 payload isBE ≠ 0 ∧ typeInfo &&& 0x38000 = 0
          ∧ byteAt (payload.drop 2) (endianRead16 payload isBE - 1) = 0))
    ∧ (typeInfo &&& 0x800 = 0 → endianRead16 payload isBE ≠ 0 → typeInfo &&& 0x38000 = 0
        → byteAt (payload.drop 2) (endianRead16 payload isBE - 1) = 0
        → parseStringArg isBE typeInfo payload output
            = .ok (output ++ strOfBytes ((payload.drop 2).take (endianRead16 payload isBE - 1)),
                   payload.drop (2 + endianRead16 payload isBE))) := by
  have hunfold : parseStringArg isBE typeInfo payload output =
      if typeInfo &&& 0x800 = 0 then
        (if endianRead16 payload isBE = 0 then .error (.parseError "INFO_STRG len is 0" false)
         else if typeInfo &&& 0x38000 = 0 then
           (if byteAt (payload.drop 2) (endianRead16 payload isBE - 1) = 0 then
              .ok (output ++ strOfBytes ((payload.drop 2).take (endianRead16 payload isBE - 1)),
                   payload.drop (2 + endianRead16 payload isBE))
            else .error (.parseError "string is not null-terminated" false))
         else if typeInfo &&& 0x38000 = 0x8000 then
           .error (.parseError "SCOD_UTF8 is not supported yet" false)
         else .error (.parseError "incorrect CodingType of string" false))
      else .error (.parseError "how could string be variable?" false) := by
    unfold parseStringArg parseStr
    by_cases h1 : typeInfo &&& 0x800 = 0 <;> by_cases h2 : endianRead16 payload isBE = 0 <;>
      by_cases h3 : typeInfo &&& 0x38000 = 0 <;>
      by_cases h4 : byteAt (payload.drop 2) (endianRead16 payload isBE - 1) = 0 <;>
      by_cases h5 : typeInfo &&& 0x38000 = 0x8000 <;>
      simp_all [List.drop_drop]
  rw [hunfold]
  constructor
  · constructor
    · rintro ⟨v, hv⟩
      by_cases h1 : typeInfo &&& 0x800 = 0 <;> by_cases h2 : endianRead16 payload isBE = 0 <;>
        by_cases h3 : typeInfo &&& 0x38000 = 0 <;>
        by_cases h4 : byteAt (payload.drop 2) (endianRead16 payload isBE - 1) = 0 <;>
        by_cases h5 : typeInfo &&& 0x38000 = 0x8000 <;>
        simp_all
    · rintro ⟨h1, h2, h3, h4⟩
      exact ⟨_, by rw [if_pos h1, if_neg h2, if_pos h3, if_pos h4]⟩
  · intro h1 h2 h3 h4
    rw [if_pos h1, if_neg h2, if_pos h3, if_pos h4]

/-- C6 witness: the ASCII string `hi\0` of declared length 3 parses to `hi`
and consumes five bytes. -/
theorem string_arg_characterization_witness :
    parseStringArg false 0x200 [3, 0, 104, 105, 0] ""
      = .ok ("" ++ strOfBytes ((([3, 0, 104, 105, 0] : List Nat).drop 2).take
               (endianRead16 [3, 0, 104, 105, 0] false - 1)),
             ([3, 0, 104, 105, 0] : List Nat).drop (2 + endianRead16 [3, 0, 104, 105, 0] false)) :=
  (string_arg_characterization false 0x200 [3, 0, 104, 105, 0] "" (by decide)).2
    (by decide) (by decide) (by decide) (by decide)

/-- C7 counterexample: the RAW argument `DE AD BE` renders as the 7-character
string `DEADBE\0` — the `len * 2 + 1` resize leaves one NUL filler character —
not as the 6-character `DEADBE` the claim states. -/
theorem raw_arg_counterexample :
    (parseRaw false [3, 0, 222, 173, 190] "").1 = "DEADBE\x00"
    ∧ (parseRaw false [3, 0, 222, 173, 190] "").1 ≠ "DEADBE"
    ∧ (parseRaw false [3, 0, 222, 173, 190] "").1.length = 7 := by decide

/-- C7 (amended): for a RAW argument of length `len` the text appended to the
output is the `2·len` uppercase hex characters of the consumed bytes followed
by one NUL filler character (total length `2·len + 1`), and exactly `len`
payload bytes after the length field are consumed. -/
theorem raw_arg_amended (isBE : Bool) (payload : List Nat) (output : String)
    (hbound : 2 + endianRead16 payload isBE ≤ payload.length) :
    parseRaw isBE payload output
      = (output ++ String.mk (hexOfBytes ((payload.drop 2).take (endianRead16 payload isBE)))
           ++ "\x00",
         payload.drop (2 + endianRead16 payload isBE))
    ∧ (parseRaw isBE payload output).1.length
      = output.length + 2 * endianRead16 payload isBE + 1 := by
  have h1 : parseRaw isBE payload output
      = (output ++ String.mk (hexOfBytes ((payload.drop 2).take (endianRead16 payload isBE)))
           ++ "\x00",
         payload.drop (2 + endianRead16 payload isBE)) := by
    simp only [parseRaw]
    rw [List.drop_drop]
  refine ⟨h1, ?_⟩
  rw [h1]
  have htake : ((payload.drop 2).take (endianRead16 payload isBE)).length
      = endianRead16 payload isBE := by
    rw [List.length_take, List.length_drop]
    omega
  show (output ++ String.mk (hexOfBytes ((payload.drop 2).take (endianRead16 payload isBE)))
      ++ "\x00").length = _
  rw [String.length_append, String.length_append]
  have hmk : (String.mk (hexOfBytes ((payload.drop 2).take (endianRead16 payload isBE)))).length
      = (hexOfBytes ((payload.drop 2).take (endianRead16 payload isBE))).length := rfl
  rw [hmk, hexOfBytes_length, htake]
  rfl

/-- C7 witness: the amended statement at the `DE AD BE` input. -/
theorem raw_arg_amended_witness :
    parseRaw false [3, 0, 222, 173, 190] ""
      = ("" ++ String.mk (hexOfBytes ((([3, 0, 222, 173, 190] : List Nat).drop 2).take
             (endianRead16 [3, 0, 222, 173, 190] false))) ++ "\x00",
         ([3, 0, 222, 173, 190] : List Nat).drop (2 + endianRead16 [3, 0, 222, 173, 190] false))
    ∧ (parseRaw false [3, 0, 222, 173, 190] "").1.length
      = ("" : String).length + 2 * endianRead16 [3, 0, 222, 173, 190] false + 1 :=
  raw_arg_amended false [3, 0, 222, 173, 190] "" (by decide)

/-- C8: the supervisor's merge drops a non-empty chunk's first record iff it
is corrupted and either the previous chunk's overrun is positive and equals
this chunk's first valid offset, or both chunks' overruns are the
`OVERRUN_EOF` sentinel; otherwise the whole chunk list is kept in order. -/
theorem merge_drop_characterization (prev cur : reader) (rec0 : DltRecord)
    (rs : List DltRecord) :
    mergeStep prev cur (rec0 :: rs)
      = if rec0.isCorrupted = true
            ∧ ((0 < prev.overrun ∧ prev.overrun = cur.first_valid_offset)
                ∨ (prev.overrun = OVERRUN_EOF ∧ cur.overrun = OVERRUN_EOF))
        then rs else rec0 :: rs := by
  simp only [mergeStep, shouldSkipFirst]
  by_cases hc : rec0.isCorrupted <;>
    by_cases h1 : 0 < prev.overrun <;>
    by_cases h2 : prev.overrun = cur.first_valid_offset <;>
    by_cases h3 : prev.overrun = OVERRUN_EOF <;>
    by_cases h4 : cur.overrun = OVERRUN_EOF <;>
    simp_all

/-- C9: on a record that is not corrupted, `getCorruptionCause` dereferences
the absent optional and raises (`std::bad_optional_access`), rather than
returning an empty or default text. -/
theorem corruption_cause_raises_when_absent (r : DltRecord) (h : r.isCorrupted = false) :
    r.getCorruptionCause = .error "bad optional access" := by
  unfold DltRecord.getCorruptionCause
  cases hc : r.corruptionCause with
  | none => rfl
  | some s => simp [DltRecord.isCorrupted, hc] at h

/-- C9 witness: the default-constructed record. -/
theorem corruption_cause_raises_when_absent_witness :
    emptyRecord.getCorruptionCause = .error "bad optional access" :=
  corruption_cause_raises_when_absent emptyRecord (by decide)

/-- C10: a verbose log or trace record (any non-Control type) with `noar = 0`
gets the empty message: the argument-parser slot is never invoked (the result
holds for every callback) and no `[<id>]` non-verbose rendering is produced. -/
theorem verbose_zero_args_empty_message (ap : ArgCb) (isBE : Bool) (type subType : Int)
    (payload : List Nat) (h : type ≠ 3) :
    assembleMessage ap isBE Mode.verbose type subType 0 payload = .ok "" := by
  unfold assembleMessage
  rw [if_neg h, if_pos rfl]
  simp

/-- C10 witness: a verbose Log/Info record with no arguments. -/
theorem verbose_zero_args_empty_message_witness :
    assembleMessage apNone false Mode.verbose 0 4 0 [] = .ok "" :=
  verbose_zero_args_empty_message apNone false 0 4 [] (by decide)

end Dlt
